import Mathlib

/-
  Verification of the WebDAW core engine (src/script.js).

  The engine's scheduler, channel/voice dispatch, piano-roll editing, step
  toggling and procedural sample generation are embedded shallowly below.
  Audio-clock times and tempo are modelled as rationals (the scheduler only
  adds and compares them); synthesis formulas (playback rate, oscillator
  frequency, generated PCM data) live in the reals.
-/

namespace WebDAW

/-- A scheduled sequencer event: the step index emitted by the scheduler
    loop together with its audio-clock timestamp (`DAW.currentStep`,
    `DAW.nextNoteTime` at the moment `Sequencer.scheduleNote` is called). -/
structure Event where
  step : ℕ
  time : ℚ
deriving DecidableEq, Repr

/-- Transport state of the sequencer: `DAW.isPlaying`, `DAW.currentStep`,
    `DAW.nextNoteTime`, and whether a look-ahead timer is pending
    (`DAW.timerID` set by `setTimeout`). -/
structure Transport where
  isPlaying : Bool
  currentStep : ℕ
  nextNoteTime : ℚ
  timerPending : Bool
deriving DecidableEq, Repr

/-- One sixteenth-note step duration: `0.25 * (60 / tempo)` seconds
    (`Sequencer.nextStep`, line 212-213). -/
def stepDur (tempo : ℚ) : ℚ := 0.25 * (60 / tempo)

/-- `Sequencer.nextStep`: advance `nextNoteTime` by one sixteenth note,
    increment `currentStep`, and reset it to 0 when it reaches
    `DAW.stepCount`. -/
def nextStep (tempo : ℚ) (stepCount : ℕ) (st : Transport) : Transport :=
  { st with
    nextNoteTime := st.nextNoteTime + stepDur tempo
    currentStep := if st.currentStep + 1 = stepCount then 0 else st.currentStep + 1 }

/-- The while-loop of `Sequencer.scheduler`: while
    `nextNoteTime < now + scheduleAheadTime`, emit the current step at
    `nextNoteTime` and advance with `nextStep`.  `fuel` bounds the number of
    iterations; whenever the fuel is large enough the loop condition is the
    only exit. -/
def schedulerTick (tempo : ℚ) (stepCount : ℕ) (ahead : ℚ) :
    ℕ → ℚ → Transport → List Event × Transport
  | 0, _, st => ([], st)
  | Nat.succ fuel, now, st =>
    if st.nextNoteTime < now + ahead then
      let rest := schedulerTick tempo stepCount ahead fuel now (nextStep tempo stepCount st)
      (⟨st.currentStep, st.nextNoteTime⟩ :: rest.1, rest.2)
    else ([], st)

/-- `Sequencer.scheduler`: run the while-loop, then re-arm the look-ahead
    timer exactly when the transport is still playing (`setTimeout` on
    line 207). -/
def scheduler (tempo : ℚ) (stepCount : ℕ) (ahead : ℚ) (fuel : ℕ) (now : ℚ)
    (st : Transport) : List Event × Transport :=
  let r := schedulerTick tempo stepCount ahead fuel now st
  (r.1, { r.2 with timerPending := r.2.isPlaying })

/-- A whole run of the engine: the driver fires `Sequencer.scheduler` once
    for each (arbitrarily jittered) tick time in `ticks`, threading the
    transport state through.  Returns all emitted events in order. -/
def runTicks (tempo : ℚ) (stepCount : ℕ) (ahead : ℚ) (fuel : ℕ) :
    List ℚ → Transport → List Event × Transport
  | [], st => ([], st)
  | now :: rest, st =>
    let r := scheduler tempo stepCount ahead fuel now st
    let r2 := runTicks tempo stepCount ahead fuel rest r.2
    (r.1 ++ r2.1, r2.2)

/-- All events emitted during a run. -/
def emittedEvents (tempo : ℚ) (stepCount : ℕ) (ahead : ℚ) (fuel : ℕ)
    (ticks : List ℚ) (st : Transport) : List Event :=
  (runTicks tempo stepCount ahead fuel ticks st).1

/-- The transport state `Sequencer.start` installs before its inline
    `scheduler()` call (lines 187-189): playing, step cursor 0, next event
    at the current audio-clock time. -/
def startState (now : ℚ) (st : Transport) : Transport :=
  { st with isPlaying := true, currentStep := 0, nextNoteTime := now }

/-- `Sequencer.start`: a no-op when already playing; otherwise install the
    start state and immediately run one scheduler tick. -/
def start (tempo : ℚ) (stepCount : ℕ) (ahead : ℚ) (fuel : ℕ) (now : ℚ)
    (st : Transport) : List Event × Transport :=
  if st.isPlaying then ([], st)
  else scheduler tempo stepCount ahead fuel now (startState now st)

/-- `Sequencer.stop`: leave the playing state and cancel the pending
    look-ahead tick (`clearTimeout`). -/
def stop (st : Transport) : Transport :=
  { st with isPlaying := false, timerPending := false }

/-- The step-increment-and-wrap of `nextStep` agrees with `(s + 1) % S` as
    long as the cursor is in range. -/
lemma wrapStep_eq_mod (s S : ℕ) (h : s < S) :
    (if s + 1 = S then 0 else s + 1) = (s + 1) % S := by
  split
  · next heq => rw [heq, Nat.mod_self]
  · next hne => exact (Nat.mod_eq_of_lt (Nat.lt_of_le_of_ne h hne)).symm

/-- Closed form of the scheduler while-loop: starting from cursor `s < S`
    and next-event time `t`, it emits some number `k` of events, the `j`-th
    having step `(s + j) % S` and timestamp `t + j` step durations, and
    leaves the cursor and clock advanced accordingly. -/
lemma schedulerTick_run (tempo : ℚ) (S : ℕ) (ahead : ℚ) :
    ∀ (fuel : ℕ) (now : ℚ) (p q : Bool) (s : ℕ) (t : ℚ), s < S →
    ∃ k, schedulerTick tempo S ahead fuel now ⟨p, s, t, q⟩ =
      ((List.range k).map (fun j => ⟨(s + j) % S, t + (j : ℚ) * stepDur tempo⟩),
       ⟨p, (s + k) % S, t + (k : ℚ) * stepDur tempo, q⟩) := by
  intro fuel
  induction fuel with
  | zero =>
    intro now p q s t hs
    refine ⟨0, ?_⟩
    simp [schedulerTick, Nat.mod_eq_of_lt hs]
  | succ fuel ih =>
    intro now p q s t hs
    by_cases hc : t < now + ahead
    · have hS : 0 < S := lt_of_le_of_lt (Nat.zero_le s) hs
      have hs' : (s + 1) % S < S := Nat.mod_lt _ hS
      obtain ⟨k, hk⟩ := ih now p q ((s + 1) % S) (t + stepDur tempo) hs'
      refine ⟨k + 1, ?_⟩
      have hnext : nextStep tempo S ⟨p, s, t, q⟩ = ⟨p, (s + 1) % S, t + stepDur tempo, q⟩ := by
        simp [nextStep, wrapStep_eq_mod s S hs]
      simp only [schedulerTick, hnext, if_pos hc, hk]
      simp only [Prod.mk.injEq]
      constructor
      · rw [List.range_succ_eq_map, List.map_cons, List.map_map]
        congr 1
        · simp [Nat.mod_eq_of_lt hs]
        · refine List.map_congr_left ?_
          intro j _
          simp only [Function.comp_apply, Event.mk.injEq]
          constructor
          · rw [Nat.mod_add_mod]
            congr 1
            omega
          · push_cast
            ring
      · simp only [Transport.mk.injEq, Nat.mod_add_mod]
        refine ⟨trivial, by congr 1; omega, ?_, trivial⟩
        push_cast
        ring
    · exact ⟨0, by simp [schedulerTick, hc, Nat.mod_eq_of_lt hs]⟩

/-- `scheduler` behaves like the while-loop and re-arms the timer when
    playing. -/
lemma scheduler_run (tempo : ℚ) (S : ℕ) (ahead : ℚ) (fuel : ℕ) (now : ℚ)
    (p q : Bool) (s : ℕ) (t : ℚ) (hs : s < S) :
    ∃ k, scheduler tempo S ahead fuel now ⟨p, s, t, q⟩ =
      ((List.range k).map (fun j => ⟨(s + j) % S, t + (j : ℚ) * stepDur tempo⟩),
       ⟨p, (s + k) % S, t + (k : ℚ) * stepDur tempo, p⟩) := by
  obtain ⟨k, hk⟩ := schedulerTick_run tempo S ahead fuel now p q s t hs
  exact ⟨k, by simp [scheduler, hk]⟩

/-- Closed form of a whole jittered run: the `j`-th emitted event (across
    all ticks) has step `(s + j) % S` and timestamp `t + j` step durations,
    regardless of when the driver ticks fire. -/
lemma runTicks_run (tempo : ℚ) (S : ℕ) (ahead : ℚ) (fuel : ℕ) :
    ∀ (ticks : List ℚ) (p q : Bool) (s : ℕ) (t : ℚ), s < S →
    ∃ k q', runTicks tempo S ahead fuel ticks ⟨p, s, t, q⟩ =
      ((List.range k).map (fun j => ⟨(s + j) % S, t + (j : ℚ) * stepDur tempo⟩),
       ⟨p, (s + k) % S, t + (k : ℚ) * stepDur tempo, q'⟩) := by
  intro ticks
  induction ticks with
  | nil =>
    intro p q s t hs
    refine ⟨0, q, ?_⟩
    simp [runTicks, Nat.mod_eq_of_lt hs]
  | cons now rest ih =>
    intro p q s t hs
    have hS : 0 < S := lt_of_le_of_lt (Nat.zero_le s) hs
    obtain ⟨k₁, h₁⟩ := scheduler_run tempo S ahead fuel now p q s t hs
    have hs' : (s + k₁) % S < S := Nat.mod_lt _ hS
    obtain ⟨k₂, q', h₂⟩ := ih p p ((s + k₁) % S) (t + (k₁ : ℚ) * stepDur tempo) hs'
    refine ⟨k₁ + k₂, q', ?_⟩
    simp only [runTicks, h₁, h₂]
    simp only [Prod.mk.injEq]
    constructor
    · rw [List.range_add, List.map_append, List.map_map]
      congr 1
      refine List.map_congr_left ?_
      intro j _
      simp only [Function.comp_apply, Event.mk.injEq]
      constructor
      · rw [Nat.mod_add_mod]
        congr 1
        omega
      · push_cast
        ring
    · simp only [Transport.mk.injEq, Nat.mod_add_mod]
      refine ⟨trivial, by congr 1; omega, ?_, trivial⟩
      push_cast
      ring

/-- C1: for every tempo T > 0 and step count S > 0, over any jittered run the
    scheduler's consecutive emitted events are spaced exactly `0.25 * 60/T`
    seconds apart, strictly increasing, the step cursor advances by exactly
    one modulo S between consecutive events, and the j-th event of the run
    carries step `(s + j) % S` — so no step is skipped and none is scheduled
    twice in a loop. -/
theorem scheduler_emits_one_event_per_step (tempo : ℚ) (S : ℕ) (ahead : ℚ)
    (fuel : ℕ) (ticks : List ℚ) (p q : Bool) (s : ℕ) (t : ℚ) (j : ℕ)
    (htempo : 0 < tempo) (hs : s < S)
    (hj : j + 1 < (emittedEvents tempo S ahead fuel ticks ⟨p, s, t, q⟩).length) :
    ((emittedEvents tempo S ahead fuel ticks ⟨p, s, t, q⟩).getD (j + 1) ⟨0, 0⟩).time
        = ((emittedEvents tempo S ahead fuel ticks ⟨p, s, t, q⟩).getD j ⟨0, 0⟩).time
          + 0.25 * (60 / tempo)
    ∧ ((emittedEvents tempo S ahead fuel ticks ⟨p, s, t, q⟩).getD j ⟨0, 0⟩).time
        < ((emittedEvents tempo S ahead fuel ticks ⟨p, s, t, q⟩).getD (j + 1) ⟨0, 0⟩).time
    ∧ ((emittedEvents tempo S ahead fuel ticks ⟨p, s, t, q⟩).getD (j + 1) ⟨0, 0⟩).step
        = (((emittedEvents tempo S ahead fuel ticks ⟨p, s, t, q⟩).getD j ⟨0, 0⟩).step + 1) % S
    ∧ ((emittedEvents tempo S ahead fuel ticks ⟨p, s, t, q⟩).getD j ⟨0, 0⟩).step
        = (s + j) % S := by
  obtain ⟨k, q', hrun⟩ := runTicks_run tempo S ahead fuel ticks p q s t hs
  have hev : emittedEvents tempo S ahead fuel ticks ⟨p, s, t, q⟩ =
      (List.range k).map (fun j => ⟨(s + j) % S, t + (j : ℚ) * stepDur tempo⟩) := by
    rw [emittedEvents, hrun]
  have hlen : (emittedEvents tempo S ahead fuel ticks ⟨p, s, t, q⟩).length = k := by
    rw [hev]; simp
  have hjk : j + 1 < k := by rw [hlen] at hj; exact hj
  have hget : ∀ i, i < k →
      (emittedEvents tempo S ahead fuel ticks ⟨p, s, t, q⟩).getD i ⟨0, 0⟩ =
        ⟨(s + i) % S, t + (i : ℚ) * stepDur tempo⟩ := by
    intro i hi
    rw [hev, List.getD_eq_getElem _ _ (by simpa using hi)]
    simp
  rw [hget (j + 1) hjk, hget j (Nat.lt_of_succ_lt hjk)]
  have hd : 0 < stepDur tempo := by
    rw [stepDur]
    positivity
  dsimp only
  refine ⟨?_, ?_, ?_, rfl⟩
  · rw [stepDur]
    push_cast
    ring
  · have h1 : ((j : ℚ) + 1) * stepDur tempo = (j : ℚ) * stepDur tempo + stepDur tempo := by ring
    push_cast
    nlinarith [hd]
  · rw [Nat.mod_add_mod]
    congr 1

/-- C1 witness: a concrete jittered run at tempo 130, 16 steps, look-ahead
    window 0.1 s, driver ticks at clock times 0 and 0.2. -/
theorem scheduler_emits_one_event_per_step_witness :
    ((emittedEvents 130 16 (1/10) 10 [0, 1/5] ⟨true, 0, 0, false⟩).getD 1 ⟨0, 0⟩).time
        = ((emittedEvents 130 16 (1/10) 10 [0, 1/5] ⟨true, 0, 0, false⟩).getD 0 ⟨0, 0⟩).time
          + 0.25 * (60 / 130)
    ∧ ((emittedEvents 130 16 (1/10) 10 [0, 1/5] ⟨true, 0, 0, false⟩).getD 0 ⟨0, 0⟩).time
        < ((emittedEvents 130 16 (1/10) 10 [0, 1/5] ⟨true, 0, 0, false⟩).getD 1 ⟨0, 0⟩).time
    ∧ ((emittedEvents 130 16 (1/10) 10 [0, 1/5] ⟨true, 0, 0, false⟩).getD 1 ⟨0, 0⟩).step
        = (((emittedEvents 130 16 (1/10) 10 [0, 1/5] ⟨true, 0, 0, false⟩).getD 0 ⟨0, 0⟩).step + 1) % 16
    ∧ ((emittedEvents 130 16 (1/10) 10 [0, 1/5] ⟨true, 0, 0, false⟩).getD 0 ⟨0, 0⟩).step
        = (0 + 0) % 16 :=
  scheduler_emits_one_event_per_step 130 16 (1/10) 10 [0, 1/5] true false 0 0 0
    (by norm_num) (by norm_num)
    (by norm_num [emittedEvents, runTicks, scheduler, schedulerTick, nextStep, stepDur])

/-- C8: starting from a non-playing transport, `start` installs step cursor
    0, next-event timestamp equal to the current audio-clock time, and the
    Playing state, then runs the scheduler from exactly that state; `stop`
    cancels the pending look-ahead tick and leaves the transport stopped. -/
theorem start_resets_stop_cancels (tempo : ℚ) (S : ℕ) (ahead : ℚ) (fuel : ℕ)
    (now : ℚ) (st : Transport) (h : st.isPlaying = false) :
    start tempo S ahead fuel now st
        = scheduler tempo S ahead fuel now (startState now st)
    ∧ (startState now st).currentStep = 0
    ∧ (startState now st).nextNoteTime = now
    ∧ (startState now st).isPlaying = true
    ∧ (∀ st' : Transport, (stop st').isPlaying = false ∧ (stop st').timerPending = false) := by
  refine ⟨?_, rfl, rfl, rfl, fun st' => ⟨rfl, rfl⟩⟩
  rw [start, h]
  simp

/-- C8 witness: starting from a concrete stopped transport. -/
theorem start_resets_stop_cancels_witness :
    start 130 16 (1/10) 0 7 ⟨false, 5, 3, true⟩
        = scheduler 130 16 (1/10) 0 7 (startState 7 ⟨false, 5, 3, true⟩)
    ∧ (startState 7 ⟨false, 5, 3, true⟩).currentStep = 0
    ∧ (startState 7 ⟨false, 5, 3, true⟩).nextNoteTime = 7
    ∧ (startState 7 ⟨false, 5, 3, true⟩).isPlaying = true
    ∧ (∀ st' : Transport, (stop st').isPlaying = false ∧ (stop st').timerPending = false) :=
  start_resets_stop_cancels 130 16 (1/10) 0 7 ⟨false, 5, 3, true⟩ rfl

/-- Channel variant tag: the code's string-tagged `'synth'` / `'sampler'`. -/
inductive ChannelType where
  | synth
  | sampler
deriving DecidableEq, Repr

/-- A piano-roll note `{ start, duration, pitch, velocity }`; `start` and
    `duration` are measured in sixteenth steps. -/
structure Note where
  start : ℚ
  duration : ℚ
  pitch : ℤ
  velocity : ℚ
deriving DecidableEq, Repr

/-- A decoded or procedurally generated sample assigned to a sampler
    channel; `playNote` only consumes its duration (seconds). -/
structure SampleBuffer where
  duration : ℝ

/-- A channel (instrument), as held in `DAW.channels`. -/
structure Channel where
  id : ℕ
  name : String
  type : ChannelType
  buffer : Option SampleBuffer
  volume : ℝ
  pan : ℝ
  pitch : ℤ
  targetMixerTrack : ℕ
  steps : List Bool
  pianoRollNotes : List Note

/-- The `Channel` constructor (lines 116-127): no buffer, volume 0.8,
    pan 0, pitch 0, auto-routed to mixer track `(id % 16) + 1`, sixteen
    cleared step flags, empty note list. -/
def Channel.make (id : ℕ) (name : String) (ty : ChannelType) : Channel :=
  { id := id, name := name, type := ty, buffer := none, volume := 0.8, pan := 0,
    pitch := 0, targetMixerTrack := id % 16 + 1,
    steps := List.replicate 16 false, pianoRollNotes := [] }

/-- `AudioEngine.createChannel`: build a channel and, for a sampler created
    with a sample key, assign the generated buffer. -/
def createChannel (id : ℕ) (name : String) (ty : ChannelType)
    (sample : Option SampleBuffer) : Channel :=
  match ty, sample with
  | ChannelType.sampler, some b => { Channel.make id name ty with buffer := some b }
  | _, _ => Channel.make id name ty

/-- The step-button click handler (line 332): `ch.steps[i] = !ch.steps[i]`. -/
def toggleStep (steps : List Bool) (i : ℕ) : List Bool :=
  steps.set i (!steps.getD i false)

/-- `PianoRoll.handleInput` note toggling (lines 496-509): remove the first
    note whose pitch matches exactly and whose start is within 0.1 of the
    clicked step, otherwise append a fresh note of duration 1 (one step) and
    velocity 1.0. -/
def toggleNote (notes : List Note) (pitch : ℤ) (start : ℚ) : List Note :=
  match notes.findIdx? (fun n => n.pitch == pitch && decide (|n.start - start| < 1/10)) with
  | some i => notes.eraseIdx i
  | none => notes ++ [⟨start, 1, pitch, 1⟩]

/-- The channel-mutating operations the code ever performs after creation:
    step toggling, piano-roll note toggling, and sample (re)assignment
    (`FileLoader.loadSample`). -/
inductive ChannelEdit where
  | toggleStepAt (i : ℕ)
  | toggleNoteAt (pitch : ℤ) (start : ℚ)
  | assignBuffer (b : SampleBuffer)

/-- Apply a user edit to a channel. -/
def applyEdit (e : ChannelEdit) (ch : Channel) : Channel :=
  match e with
  | ChannelEdit.toggleStepAt i => { ch with steps := toggleStep ch.steps i }
  | ChannelEdit.toggleNoteAt p s => { ch with pianoRollNotes := toggleNote ch.pianoRollNotes p s }
  | ChannelEdit.assignBuffer b => { ch with buffer := some b }

/-- The number of insert tracks: `AudioEngine.init` creates mixer tracks
    0..16, index 0 being the master. -/
def insertTrackCount : ℕ := 16

/-- Reading back an element just written by `List.set`. -/
lemma getD_set_self {α : Type} (d b : α) :
    ∀ (l : List α) (i : ℕ), i < l.length → (l.set i b).getD i d = b := by
  intro l
  induction l with
  | nil =>
    intro i hi
    simp at hi
  | cons a l ih =>
    intro i hi
    cases i with
    | zero => simp
    | succ i =>
      have := ih i (by simpa using hi)
      simpa using this

/-- Writing back the element already present is the identity. -/
lemma set_getD_self {α : Type} (d : α) :
    ∀ (l : List α) (i : ℕ), i < l.length → l.set i (l.getD i d) = l := by
  intro l
  induction l with
  | nil =>
    intro i hi
    simp at hi
  | cons a l ih =>
    intro i hi
    cases i with
    | zero => simp
    | succ i =>
      have := ih i (by simpa using hi)
      simpa using this

/-- C6: toggling the same step twice restores the original flag array. -/
theorem toggleStep_involutive (steps : List Bool) (i : ℕ) (h : i < steps.length) :
    toggleStep (toggleStep steps i) i = steps := by
  rw [toggleStep, toggleStep, getD_set_self _ _ _ _ h, List.set_set, Bool.not_not,
    set_getD_self _ _ _ h]

/-- C6 witness: a concrete three-step row. -/
theorem toggleStep_involutive_witness :
    toggleStep (toggleStep [true, false, true] 1) 1 = [true, false, true] :=
  toggleStep_involutive [true, false, true] 1 (by norm_num)

/-- If every element of `l` fails the predicate and `a` satisfies it,
    `findIdx?` over `l ++ [a]` lands on the appended element. -/
lemma findIdx?_append_singleton {α : Type} (p : α → Bool) (a : α) (ha : p a = true) :
    ∀ (l : List α) (i : ℕ), (∀ x ∈ l, p x = false) →
      List.findIdx? p (l ++ [a]) i = some (i + l.length) := by
  intro l
  induction l with
  | nil =>
    intro i _
    simp [List.findIdx?_cons, ha]
  | cons b l ih =>
    intro i hl
    have hb : p b = false := hl b (by simp)
    rw [List.cons_append, List.findIdx?_cons, if_neg (by simp [hb]),
      ih (i + 1) (fun x hx => hl x (by simp [hx]))]
    congr 1
    simp [List.length_cons]
    omega

/-- Erasing the element just appended at the end restores the list. -/
lemma eraseIdx_append_singleton {α : Type} (a : α) :
    ∀ (l : List α), (l ++ [a]).eraseIdx l.length = l := by
  intro l
  induction l with
  | nil => rfl
  | cons b l ih =>
    simp only [List.cons_append, List.length_cons, List.eraseIdx_cons_succ, ih]

/-- C5 counterexample: a channel holding one note of duration 2 at
    `(pitch 60, start 0)`.  The first toggle removes it, the second inserts
    a fresh default note of duration 1 — the note list does not return to
    its prior state, so the toggle is not an involution on every state. -/
theorem pianoRoll_toggle_not_involutive :
    toggleNote (toggleNote [⟨0, 2, 60, 1⟩] 60 0) 60 0 ≠ [⟨0, 2, 60, 1⟩] := by
  have h1 : toggleNote [⟨0, 2, 60, 1⟩] 60 0 = [] := by
    norm_num [toggleNote, List.findIdx?_cons]
  have h2 : toggleNote [] 60 0 = [⟨0, 1, 60, 1⟩] := by
    norm_num [toggleNote, List.findIdx?_nil]
  rw [h1, h2]
  norm_num

/-- C5 (amended): toggling twice at an identical `(pitch, start)` restores
    the note list whenever no existing note matches that position under the
    0.1 tolerance: the first toggle appends the default note, the second
    removes exactly it. -/
theorem pianoRoll_toggle_involutive_on_vacant (notes : List Note) (p : ℤ) (s : ℚ)
    (h : ∀ n ∈ notes, ¬(n.pitch = p ∧ |n.start - s| < 1/10)) :
    toggleNote (toggleNote notes p s) p s = notes := by
  have hfalse : ∀ n ∈ notes,
      (n.pitch == p && decide (|n.start - s| < 1/10)) = false := by
    intro n hn
    by_cases hp : n.pitch = p
    · by_cases hq : |n.start - s| < 1/10
      · exact absurd ⟨hp, hq⟩ (h n hn)
      · simp [hq]
        exact fun _ => by simpa using not_lt.mp hq
    · simp [hp]
  have hnone :
      List.findIdx? (fun n => n.pitch == p && decide (|n.start - s| < 1/10)) notes = none :=
    List.findIdx?_eq_none_iff.mpr hfalse
  have ha : ((fun n => n.pitch == p && decide (|n.start - s| < 1/10))
      (⟨s, 1, p, 1⟩ : Note)) = true := by
    simp
  have h1 : toggleNote notes p s = notes ++ [⟨s, 1, p, 1⟩] := by
    rw [toggleNote, hnone]
  rw [h1, toggleNote,
    findIdx?_append_singleton (fun n => n.pitch == p && decide (|n.start - s| < 1/10))
      (⟨s, 1, p, 1⟩ : Note) ha notes 0 hfalse]
  simpa using eraseIdx_append_singleton (⟨s, 1, p, 1⟩ : Note) notes

/-- C5 witness: toggling on an empty note list. -/
theorem pianoRoll_toggle_involutive_on_vacant_witness :
    toggleNote (toggleNote [] 60 0) 60 0 = [] :=
  pianoRoll_toggle_involutive_on_vacant [] 60 0 (by simp)

/-- C9: every channel the engine ever creates is auto-routed to mixer track
    `(id % 16) + 1`, which lies in `[1, 16]` and is never the master index
    0; and no channel edit the code performs ever changes the routing
    target. -/
theorem targetMixerTrack_in_range :
    (∀ (id : ℕ) (name : String) (ty : ChannelType) (sample : Option SampleBuffer),
        1 ≤ (createChannel id name ty sample).targetMixerTrack
        ∧ (createChannel id name ty sample).targetMixerTrack ≤ insertTrackCount
        ∧ (createChannel id name ty sample).targetMixerTrack ≠ 0)
    ∧ (∀ (e : ChannelEdit) (ch : Channel),
        (applyEdit e ch).targetMixerTrack = ch.targetMixerTrack) := by
  constructor
  · intro id name ty sample
    have hmk : (createChannel id name ty sample).targetMixerTrack = id % 16 + 1 := by
      cases ty <;> cases sample <;> simp [createChannel, Channel.make]
    rw [hmk, insertTrackCount]
    omega
  · intro e ch
    cases e <;> rfl

/-- What the scheduler passes to `Channel.playNote` for one channel at one
    step (`Sequencer.scheduleNote`, lines 226-243): a fixed hit of duration
    0.1 s at pitch 60, velocity 1.0 when the step flag is set, and every
    piano-roll note whose start is within 0.01 of the step, with duration
    `note.duration * (60 / tempo / 4)` seconds and the note's own pitch and
    velocity. -/
structure Scheduled where
  duration : ℚ
  pitch : ℤ
  velocity : ℚ
deriving DecidableEq, Repr

/-- The `(duration, pitch, velocity)` triples `Sequencer.scheduleNote`
    dispatches for a channel at a step. -/
def scheduledFor (tempo : ℚ) (stepNumber : ℕ) (ch : Channel) : List Scheduled :=
  (if ch.steps.getD stepNumber false then [⟨1/10, 60, 1⟩] else [])
    ++ ch.pianoRollNotes.filterMap (fun n =>
        if |n.start - (stepNumber : ℚ)| < 1/100 then
          some ⟨n.duration * (60 / tempo / 4), n.pitch, n.velocity⟩
        else none)

/-- A synth channel holding a single one-step note at pitch 60, start 0. -/
def toyNoteChannel : Channel :=
  { Channel.make 3 "Lead" ChannelType.synth with pianoRollNotes := [⟨0, 1, 60, 1⟩] }

/-- C3 counterexample: at tempo 130 the note of duration 1 is scheduled
    with `1 * (60/130/4) = 3/26` seconds — one step duration — and not with
    `duration * stepDuration * 4 = 6/13` seconds as the claim states. -/
theorem scheduleNote_duration_not_four_steps :
    scheduledFor 130 0 toyNoteChannel = [⟨3/26, 60, 1⟩]
    ∧ ¬((3 / 26 : ℚ) = 1 * (0.25 * (60 / 130)) * 4) := by
  constructor
  · norm_num [scheduledFor, toyNoteChannel, Channel.make, List.filterMap_cons,
      List.replicate_succ]
  · norm_num

/-- C3 (amended): every piano-roll note whose start is within 0.01 of the
    emitted step is scheduled with duration `note.duration * stepDuration`
    seconds (one step duration per duration unit, not four) and its own
    pitch and velocity; a set step flag is scheduled with the fixed 0.1 s
    duration at pitch 60, velocity 1.0. -/
theorem scheduleNote_durations (tempo : ℚ) (stepNumber : ℕ) (ch : Channel) (n : Note)
    (hn : n ∈ ch.pianoRollNotes) (htol : |n.start - (stepNumber : ℚ)| < 1/100) :
    (⟨n.duration * stepDur tempo, n.pitch, n.velocity⟩ : Scheduled)
        ∈ scheduledFor tempo stepNumber ch
    ∧ (ch.steps.getD stepNumber false = true →
        (⟨1/10, 60, 1⟩ : Scheduled) ∈ scheduledFor tempo stepNumber ch) := by
  constructor
  · rw [scheduledFor]
    refine List.mem_append_right _ ?_
    rw [List.mem_filterMap]
    refine ⟨n, hn, ?_⟩
    rw [if_pos htol]
    have hdur : n.duration * (60 / tempo / 4) = n.duration * stepDur tempo := by
      rw [stepDur]
      ring
    rw [hdur]
  · intro hstep
    rw [scheduledFor, hstep]
    simp

/-- C3 witness: a channel with both an active step flag and a matching
    note, at tempo 130, step 0. -/
def toyStepNoteChannel : Channel :=
  { Channel.make 0 "Kick" ChannelType.synth with
      steps := [true], pianoRollNotes := [⟨0, 1, 60, 1⟩] }

/-- C3 amended-claim witness. -/
theorem scheduleNote_durations_witness :
    (⟨1 * stepDur 130, 60, 1⟩ : Scheduled) ∈ scheduledFor 130 0 toyStepNoteChannel
    ∧ (toyStepNoteChannel.steps.getD 0 false = true →
        (⟨1/10, 60, 1⟩ : Scheduled) ∈ scheduledFor 130 0 toyStepNoteChannel) :=
  scheduleNote_durations 130 0 toyStepNoteChannel ⟨0, 1, 60, 1⟩
    (by simp [toyStepNoteChannel]) (by norm_num)

/-- Where a voice's output is connected (`Channel.playNote`, lines 130-131):
    the input of the mixer track at the channel's target index when that
    track exists, otherwise the master gain directly. -/
inductive Dest where
  | track (index : ℕ)
  | master
deriving DecidableEq, Repr

/-- A mixer track as far as routing is concerned. -/
structure MixerTrack where
  index : ℕ
  volume : ℝ
  pan : ℝ

/-- `const track = DAW.mixerTracks[i]; const dest = track ? track.input :
    DAW.masterGain`. -/
def destFor (tracks : List MixerTrack) (i : ℕ) : Dest :=
  match tracks.get? i with
  | some _ => Dest.track i
  | none => Dest.master

/-- The buffer-source voice a sampler channel builds: playback rate, gain
    (`volume * velocity`), start time, stop time, and routing target. -/
structure SamplerVoice where
  rate : ℝ
  gain : ℝ
  startTime : ℝ
  stopTime : ℝ
  dest : Dest

/-- The oscillator voice a synth channel builds; `stopTime` is the time the
    oscillator is hard-stopped: gate end + release (0.2 s) + 0.1 s. -/
structure SynthVoice where
  freq : ℝ
  peak : ℝ
  startTime : ℝ
  stopTime : ℝ
  dest : Dest

/-- A voice dispatched by `Channel.playNote`. -/
inductive Voice where
  | sampler (v : SamplerVoice)
  | synth (v : SynthVoice)

/-- `playbackRate = Math.pow(2, (this.pitch + (pitch - 60)) / 12)`
    (line 138). -/
noncomputable def playbackRate (pitchOffset pitch : ℤ) : ℝ :=
  (2 : ℝ) ^ (((pitchOffset + (pitch - 60) : ℤ) : ℝ) / 12)

/-- `osc.frequency.value = 440 * Math.pow(2, (pitch - 69) / 12)`
    (line 155). -/
noncomputable def synthFreq (pitch : ℤ) : ℝ :=
  440 * (2 : ℝ) ^ (((pitch - 69 : ℤ) : ℝ) / 12)

/-- `Channel.playNote(time, duration, pitch, velocity)` (lines 129-178):
    a sampler channel with a buffer builds a buffer-source voice stopping at
    `time + buffer.duration / playbackRate`; a sampler channel without a
    buffer matches neither branch and emits nothing; a synth channel builds
    an oscillator voice stopped at `time + duration + 0.2 + 0.1`. -/
noncomputable def playNote (tracks : List MixerTrack) (ch : Channel)
    (time duration : ℝ) (pitch : ℤ) (velocity : ℝ) : Option Voice :=
  let dest := destFor tracks ch.targetMixerTrack
  match ch.type, ch.buffer with
  | ChannelType.sampler, some buf =>
    some (Voice.sampler
      { rate := playbackRate ch.pitch pitch
        gain := ch.volume * velocity
        startTime := time
        stopTime := time + buf.duration / playbackRate ch.pitch pitch
        dest := dest })
  | ChannelType.sampler, none => none
  | ChannelType.synth, _ =>
    some (Voice.synth
      { freq := synthFreq pitch
        peak := ch.volume * velocity
        startTime := time
        stopTime := time + duration + 0.2 + 0.1
        dest := dest })

/-- Pitch 72 at channel offset 0: one octave up, rate exactly 2. -/
lemma playbackRate_octave : playbackRate 0 72 = 2 := by
  have h : ((((0 : ℤ) + ((72 : ℤ) - 60)) : ℤ) : ℝ) / 12 = 1 := by norm_num
  rw [playbackRate, h, Real.rpow_one]

/-- Pitch 60 at channel offset 0: rate exactly 1. -/
lemma playbackRate_unison : playbackRate 0 60 = 1 := by
  have h : ((((0 : ℤ) + ((60 : ℤ) - 60)) : ℤ) : ℝ) / 12 = 0 := by norm_num
  rw [playbackRate, h, Real.rpow_zero]

/-- C2: a sampler channel with a buffer plays at rate
    `2^((pitchOffset + (pitch - 60)) / 12)` and stops exactly at
    `time + buffer.duration / rate`; pitch 72 at offset 0 gives rate
    exactly 2 (a 0.5 s buffer stops at start + 0.25 s) and pitch 60 at
    offset 0 gives rate exactly 1. -/
theorem playNote_sampler_rate_and_stop (tracks : List MixerTrack) (ch : Channel)
    (time duration : ℝ) (pitch : ℤ) (velocity : ℝ) (buf : SampleBuffer)
    (ht : ch.type = ChannelType.sampler) (hb : ch.buffer = some buf) :
    playNote tracks ch time duration pitch velocity =
      some (Voice.sampler
        { rate := playbackRate ch.pitch pitch
          gain := ch.volume * velocity
          startTime := time
          stopTime := time + buf.duration / playbackRate ch.pitch pitch
          dest := destFor tracks ch.targetMixerTrack })
    ∧ playbackRate ch.pitch pitch
        = (2 : ℝ) ^ (((ch.pitch + (pitch - 60) : ℤ) : ℝ) / 12)
    ∧ playbackRate 0 72 = 2
    ∧ playbackRate 0 60 = 1
    ∧ time + (1/2 : ℝ) / playbackRate 0 72 = time + 1/4 := by
  refine ⟨?_, rfl, playbackRate_octave, playbackRate_unison, ?_⟩
  · simp [playNote, ht, hb]
  · rw [playbackRate_octave]
    norm_num

/-- A sampler channel with a 0.5 s buffer assigned. -/
noncomputable def kickChannel : Channel :=
  { Channel.make 0 "Kick" ChannelType.sampler with buffer := some ⟨1/2⟩ }

/-- C2 witness: the concrete channel above, played at pitch 72. -/
theorem playNote_sampler_rate_and_stop_witness :
    kickChannel.type = ChannelType.sampler
    ∧ kickChannel.buffer = some ⟨1/2⟩
    ∧ playbackRate 0 72 = 2
    ∧ playbackRate 0 60 = 1
    ∧ (0 : ℝ) + (1/2 : ℝ) / playbackRate 0 72 = 0 + 1/4 := by
  have h := playNote_sampler_rate_and_stop [] kickChannel 0 0 72 1 ⟨1/2⟩ rfl rfl
  exact ⟨rfl, rfl, h.2.2.1, h.2.2.2.1, h.2.2.2.2⟩

/-- C4: `playNote` on a sampler channel with no buffer assigned is a silent
    no-op — no voice is built, nothing is routed anywhere, and no error is
    raised (the function is total and returns `none`). -/
theorem playNote_missing_buffer_noop (tracks : List MixerTrack) (ch : Channel)
    (time duration : ℝ) (pitch : ℤ) (velocity : ℝ)
    (ht : ch.type = ChannelType.sampler) (hb : ch.buffer = none) :
    playNote tracks ch time duration pitch velocity = none := by
  simp [playNote, ht, hb]

/-- C4 witness: a freshly constructed sampler channel (no buffer). -/
theorem playNote_missing_buffer_noop_witness :
    playNote [] (Channel.make 1 "Snare" ChannelType.sampler) 0 (1/10) 60 1 = none :=
  playNote_missing_buffer_noop [] (Channel.make 1 "Snare" ChannelType.sampler)
    0 (1/10) 60 1 rfl rfl

/-- C10: when the channel's target mixer track does not exist (index out of
    range or empty track list), the voice is not dropped and no error is
    raised — it is routed directly to the master output. -/
theorem playNote_missing_track_routes_to_master (tracks : List MixerTrack)
    (ch : Channel) (time duration : ℝ) (pitch : ℤ) (velocity : ℝ)
    (h : tracks.get? ch.targetMixerTrack = none) :
    destFor tracks ch.targetMixerTrack = Dest.master
    ∧ (ch.type = ChannelType.synth →
        playNote tracks ch time duration pitch velocity =
          some (Voice.synth
            { freq := synthFreq pitch
              peak := ch.volume * velocity
              startTime := time
              stopTime := time + duration + 0.2 + 0.1
              dest := Dest.master }))
    ∧ (∀ buf, ch.type = ChannelType.sampler → ch.buffer = some buf →
        playNote tracks ch time duration pitch velocity =
          some (Voice.sampler
            { rate := playbackRate ch.pitch pitch
              gain := ch.volume * velocity
              startTime := time
              stopTime := time + buf.duration / playbackRate ch.pitch pitch
              dest := Dest.master })) := by
  have hdest : destFor tracks ch.targetMixerTrack = Dest.master := by
    rw [destFor, h]
  refine ⟨hdest, ?_, ?_⟩
  · intro hty
    rcases hbuf : ch.buffer with _ | buf <;> simp [playNote, hty, hbuf, hdest]
  · intro buf hty hb
    simp [playNote, hty, hb, hdest]

/-- C10 witness: an empty mixer list and a synth channel. -/
theorem playNote_missing_track_routes_to_master_witness :
    destFor [] (Channel.make 4 "Lead" ChannelType.synth).targetMixerTrack = Dest.master
    ∧ playNote [] (Channel.make 4 "Lead" ChannelType.synth) 0 (1/2) 60 1 =
        some (Voice.synth
          { freq := synthFreq 60
            peak := (Channel.make 4 "Lead" ChannelType.synth).volume * 1
            startTime := 0
            stopTime := 0 + 1/2 + 0.2 + 0.1
            dest := Dest.master }) := by
  have h := playNote_missing_track_routes_to_master []
    (Channel.make 4 "Lead" ChannelType.synth) 0 (1/2) 60 1 rfl
  exact ⟨h.1, h.2.1 rfl⟩

/-- A procedural preset name (`ProceduralAudio.generate`). -/
inductive Preset where
  | kick
  | snare
  | hat
deriving DecidableEq, Repr

/-- A generated PCM buffer: channel count, frame count, and sample data
    (`createBuffer` zero-initialises, so samples never written stay 0). -/
structure GenBuffer where
  numChannels : ℕ
  length : ℕ
  data : ℕ → ℝ

/-- `ProceduralAudio.generate` (lines 516-547).  The buffer is allocated
    with `length = sampleRate * 0.5` BEFORE the per-preset branch runs; the
    hat branch then reassigns the local `length` to `sampleRate * 0.1`,
    which only shortens its write loop — the already-created buffer keeps
    its 0.5 s frame count, and frames from `sampleRate * 0.1` on remain 0.
    `noise i` stands for the `Math.random() * 2 - 1` draw at frame `i`.
    Frame counts use natural division, exact whenever the sample rate is a
    multiple of 10. -/
noncomputable def generate (p : Preset) (sampleRate : ℕ) (noise : ℕ → ℝ) : GenBuffer :=
  let bufLen := sampleRate / 2
  match p with
  | Preset.kick =>
    ⟨1, bufLen, fun i => if i < bufLen then
        Real.sin (2 * Real.pi * (150 * Real.exp (-((i : ℝ) / sampleRate) * 15))
            * ((i : ℝ) / sampleRate))
          * Real.exp (-((i : ℝ) / sampleRate) * 5)
      else 0⟩
  | Preset.snare =>
    ⟨1, bufLen, fun i => if i < bufLen then
        (noise i * 0.8 + Real.sin (2 * Real.pi * 200 * ((i : ℝ) / sampleRate)) * 0.2)
          * Real.exp (-((i : ℝ) / sampleRate) * 10)
      else 0⟩
  | Preset.hat =>
    ⟨1, bufLen, fun i => if i < sampleRate / 10 then
        noise i * Real.exp (-((i : ℝ) / sampleRate) * 40)
      else 0⟩

/-- C7, evaluated at the failing input: at 44100 Hz the Kick buffer is
    0.5 s (22050 frames) as claimed, but the Hat buffer is also 22050
    frames — not the claimed 4410 (0.1 s) — and its frame 10000 (t ≈ 0.23 s,
    inside the buffer) is 0 even though the claimed formula
    `noise(t) · e^(-40t)` is nonzero for the constant-1 noise source. -/
theorem generate_hat_buffer_is_half_second :
    (generate Preset.kick 44100 (fun _ => 1)).length = 22050
    ∧ (generate Preset.hat 44100 (fun _ => 1)).length = 22050
    ∧ ¬(generate Preset.hat 44100 (fun _ => 1)).length = 4410
    ∧ (generate Preset.hat 44100 (fun _ => 1)).data 10000 = 0
    ∧ ¬(1 : ℝ) * Real.exp (-(((10000 : ℕ) : ℝ) / 44100) * 40) = 0 := by
  refine ⟨rfl, rfl, by norm_num [generate], ?_, ?_⟩
  · norm_num [generate]
  · simp [Real.exp_ne_zero]

end WebDAW
